import Mathlib

/-!
Shallow embedding of the `logging` repository (packages `metrics` and `log`,
both in src/metrics/metrics.go) and proofs about its claims.

Modelling conventions:
* Go `interface{}` values that can reach the logging call sites are the
  inductive `GoV`.  The four argument kinds the classifier accepts
  (`string`, `log.Tags`, `metrics.Metrics`, `metrics.Tags`) are separate
  constructors, exactly as Go's type assertions distinguish the named types;
  every other value (`int`, `float64`, `[]interface.0.`, ...) is one of the
  remaining constructors and is "unsupported" for the classifier.
* Go `float64` is modelled as `Rat`.  The repository only stores metric
  values and passes them through (no float arithmetic occurs in the
  modelled code), so exact rationals are a faithful carrier for literals.
* Go maps (`log.Tags`, `metrics.Tags`) are unordered key-value mappings;
  they are modelled as association lists with at most one entry per key,
  maintained by `mapSet` (insert-or-overwrite, like a Go map assignment)
  and observed through `mapGet`.  Serialization of a map to text
  (`asMetricTags`, the emitter's line) iterates the Go map in unspecified
  order, so effects carry the maps themselves rather than a serialization.
* Side effects (writing a line, the godog backend record calls, the
  newrelic NoticeError/End calls, os.Exit) are reified as a `List Effect`
  returned by each operation.  A Go `panic` is the `.error` case of
  `Except String` carrying the panic message.
-/

/-- Go `interface{}` values reaching logging call sites.  `ltags` is
`log.Tags`, `mtags` is `metrics.Tags` (distinct named Go types with the
same underlying type), `vmetrics` is `metrics.Metrics`: the record list,
each record being (metricType, Name, Value, tags) as in the `Metric`
struct of the source. -/
inductive GoV : Type where
  | str (s : String)
  | vint (n : Int)
  | vfloat (q : Rat)
  | vlist (vs : List GoV)
  | ltags (entries : List (String × GoV))
  | mtags (entries : List (String × GoV))
  | vmetrics (recs : List (String × String × Rat × List (String × GoV)))
deriving Repr

/-- A Go map value: association list with at most one entry per key. -/
abbrev GoMap := List (String × GoV)

/-- Lookup in a Go map (source: `m[k]`). -/
def mapGet (m : GoMap) (k : String) : Option GoV :=
  match m with
  | [] => none
  | (k₀, v) :: rest => if k₀ = k then some v else mapGet rest k

/-- Insert-or-overwrite in a Go map (source: `m[k] = v`). -/
def mapSet (m : GoMap) (k : String) (v : GoV) : GoMap :=
  match m with
  | [] => [(k, v)]
  | (k₀, v₀) :: rest => if k₀ = k then (k, v) :: rest else (k₀, v₀) :: mapSet rest k v

namespace metrics

/-- `metrics.Metric`: a typed, named, valued telemetry record
(metrics.go lines 16-21). -/
structure Metric : Type where
  metricType : String
  Name : String
  Value : Rat
  tags : GoMap
deriving Repr

/-- `metrics.Metrics`: the record list (metrics.go lines 25-27). -/
structure Metrics : Type where
  Values : List Metric
deriving Repr

/-- Metric type constants (metrics.go lines 35-40). -/
def FULL : String := "F"

/-- Metric type constant SIMPLE. -/
def SIMPLE : String := "S"

/-- Metric type constant COMPOUND. -/
def COMPOUND : String := "C"

/-- Metric type constant ERROR (sends error to NewRelic). -/
def ERROR : String := "E"

/-- `metrics.mergeTags` (metrics.go lines 211-222): a single map is
returned as-is; otherwise a fresh map is built and every map's entries are
written into it in order (later maps overwrite earlier keys). -/
def mergeTags (tags : List GoMap) : GoMap :=
  match tags with
  | [t] => t
  | ts => ts.foldl (fun merged t => t.foldl (fun m kv => mapSet m kv.1 kv.2) merged) []

/-- `metrics.Tags.Merge` (metrics.go lines 207-209). -/
def Merge (tags other : GoMap) : GoMap :=
  mergeTags [tags, other]

end metrics

/-! ### Model of the Go `fmt` library fragment used by the source

The source formats values with `fmt.Sprintf`/`fmt.Errorf` using the verbs
`%v`, `%s` and `%d` only.  The following definitions model Go's documented
formatting for the values and verbs that can reach those call sites:
default rendering of strings and integers, elementwise rendering of slices
as `[e1 e2 ...]`, map rendering as `map[k:v ...]` with sorted keys, missing
and extra operands.  Numeric rendering is exact for integral values (the
only numerics the modelled code formats).
-/

/-- Rendering of a `float64` value: Go prints integral floats without a
decimal point (`fmt.Sprintf("%v", 1.0) = "1"`). -/
def fmtRat (q : Rat) : String :=
  if q.den = 1 then toString q.num else toString q

/-- Insertion into a sorted list of strings (helper for Go's sorted map
rendering). -/
def insertSorted (s : String) : List String → List String
  | [] => [s]
  | t :: ts => if s ≤ t then s :: t :: ts else t :: insertSorted s ts

/-- Sort a list of strings (Go renders map entries in sorted key order). -/
def sortStrings (l : List String) : List String :=
  l.foldr insertSorted []

/-- Go type name of a value, as printed in `%!(EXTRA ...)` clauses. -/
def typeName : GoV → String
  | .str _ => "string"
  | .vint _ => "int"
  | .vfloat _ => "float64"
  | .vlist _ => "[]interface \x7b\x7d"
  | .ltags _ => "log.Tags"
  | .mtags _ => "metrics.Tags"
  | .vmetrics _ => "metrics.Metrics"

mutual

/-- Go's rendering of one operand under a verb (`%v`, `%s`, `%d`):
strings print as themselves (except `%d`, which reports a bad verb),
integers in decimal, slices elementwise in brackets, maps as
`map[k:v ...]` with sorted keys, structs with brace-wrapped fields. -/
def fmtVal (verb : Char) : GoV → String
  | .str s => if verb = 'd' then "%!d(string=" ++ s ++ ")" else s
  | .vint n => toString n
  | .vfloat q => fmtRat q
  | .vlist vs => "[" ++ String.intercalate " " (fmtValList verb vs) ++ "]"
  | .ltags m => "map[" ++ String.intercalate " " (sortStrings (fmtEntries m)) ++ "]"
  | .mtags m => "map[" ++ String.intercalate " " (sortStrings (fmtEntries m)) ++ "]"
  | .vmetrics recs => "\x7b[" ++ String.intercalate " " (fmtRecs recs) ++ "]\x7d"

/-- Elementwise rendering of a slice's members. -/
def fmtValList (verb : Char) : List GoV → List String
  | [] => []
  | v :: vs => fmtVal verb v :: fmtValList verb vs

/-- Rendering of map entries as `key:value` fragments. -/
def fmtEntries : List (String × GoV) → List String
  | [] => []
  | (k, v) :: rest => (k ++ ":" ++ fmtVal 'v' v) :: fmtEntries rest

/-- Rendering of `metrics.Metric` records inside a `metrics.Metrics`
value. -/
def fmtRecs : List (String × String × Rat × List (String × GoV)) → List String
  | [] => []
  | (ty, name, value, tags) :: rest =>
    ("\x7b" ++ ty ++ " " ++ name ++ " " ++ fmtRat value ++ " map[" ++
      String.intercalate " " (sortStrings (fmtEntries tags)) ++ "]\x7d") :: fmtRecs rest

end

/-- Is the character one of the format verbs used by the source? -/
def isVerbChar (c : Char) : Bool :=
  c = 'v' || c = 'd' || c = 's'

/-- Go appends `%!(EXTRA type=value, ...)` when operands remain after the
format string is exhausted. -/
def extraPart : List GoV → String
  | [] => ""
  | args =>
    "%!(EXTRA " ++
      String.intercalate ", " (args.map (fun a => typeName a ++ "=" ++ fmtVal 'v' a)) ++ ")"

/-- Scanner for `sprintf`: copies literal characters, substitutes verbs
with formatted operands, reports missing operands, appends extras. -/
def sprintfAux : List Char → List GoV → String
  | [], args => extraPart args
  | '%' :: c :: rest, args =>
    if isVerbChar c then
      match args with
      | a :: more => fmtVal c a ++ sprintfAux rest more
      | [] => "%!" ++ c.toString ++ "(MISSING)" ++ sprintfAux rest []
    else if c = '%' then "%" ++ sprintfAux rest args
    else "%" ++ c.toString ++ sprintfAux rest args
  | c :: rest, args => c.toString ++ sprintfAux rest args

/-- Model of `fmt.Sprintf` for the format verbs the source uses. -/
def sprintf (f : String) (args : List GoV) : String :=
  sprintfAux f.toList args

/-- A Go `error` value as produced by `fmt.Errorf`: it carries the
formatted message (`Error()` returns it). -/
structure GoError : Type where
  msg : String
deriving Repr

/-- Model of `fmt.Errorf`: always returns a non-nil error (hence `some`)
carrying the formatted message. -/
def fmtErrorf (f : String) (args : List GoV) : Option GoError :=
  some ⟨sprintf f args⟩

/-- Go's `fmt.Sprintf("%s", err)` on an error value yields its message. -/
def errStr : Option GoError → String
  | some e => e.msg
  | none => "%!s(<nil>)"

/-- Observable side effects of the modelled code, in order of occurrence:
the emitted log line (carrying its attribute map, since the source
serializes map entries in unspecified order), the godog backend record
calls (carrying the merged tag map for the same reason), the newrelic
calls, and process exit. -/
inductive Effect : Type where
  | emitLine (attrs : GoMap)
  | recordFull (name : String) (value : Rat) (tags : GoMap)
  | recordSimple (name : String) (value : Rat) (tags : GoMap)
  | recordCompound (name : String) (value : Rat) (tags : GoMap)
  | noticeError (handle : String) (errName : String)
  | trxEnd (handle : String)
  | segEnd (handle : String)
  | exit (code : Int)
deriving Repr

namespace metrics

/-- Embedding of a `Metric` record into a `GoV` argument value. -/
def Metric.toRec (m : Metric) : String × String × Rat × List (String × GoV) :=
  (m.metricType, m.Name, m.Value, m.tags)

/-- Decoding of a record tuple back into a `Metric`. -/
def recToMetric (r : String × String × Rat × List (String × GoV)) : Metric :=
  ⟨r.1, r.2.1, r.2.2.1, r.2.2.2⟩

/-- Embedding of a `Metrics` list into a `GoV` argument value. -/
def Metrics.toGoV (ms : Metrics) : GoV :=
  .vmetrics (ms.Values.map Metric.toRec)

/-- `metrics.Metrics.Full` (metrics.go lines 54-56): fluent add of a FULL
record. -/
def Metrics.Full (ms : Metrics) (name : String) (value : Rat) (tags : List GoMap) : Metrics :=
  ⟨ms.Values ++ [⟨FULL, name, value, mergeTags tags⟩]⟩

/-- `metrics.Metrics.Simple` (metrics.go lines 59-61). -/
def Metrics.Simple (ms : Metrics) (name : String) (value : Rat) (tags : List GoMap) : Metrics :=
  ⟨ms.Values ++ [⟨SIMPLE, name, value, mergeTags tags⟩]⟩

/-- `metrics.Metrics.Compound` (metrics.go lines 64-66). -/
def Metrics.Compound (ms : Metrics) (name : String) (value : Rat) (tags : List GoMap) : Metrics :=
  ⟨ms.Values ++ [⟨COMPOUND, name, value, mergeTags tags⟩]⟩

/-- `metrics.Metrics.Counter` (metrics.go lines 69-71): SIMPLE record with
value 1. -/
def Metrics.Counter (ms : Metrics) (name : String) (tags : List GoMap) : Metrics :=
  ⟨ms.Values ++ [⟨SIMPLE, name, 1, mergeTags tags⟩]⟩

/-- `metrics.Metrics.Error` (metrics.go lines 74-76): ERROR record with
value 1. -/
def Metrics.Error (ms : Metrics) (name : String) (tags : List GoMap) : Metrics :=
  ⟨ms.Values ++ [⟨ERROR, name, 1, mergeTags tags⟩]⟩

/-- `metrics.Full` (metrics.go lines 79-81): fresh one-element list. -/
def Full (name : String) (value : Rat) (tags : List GoMap) : Metrics :=
  ⟨[⟨FULL, name, value, mergeTags tags⟩]⟩

/-- `metrics.Simple` (metrics.go lines 84-86). -/
def Simple (name : String) (value : Rat) (tags : List GoMap) : Metrics :=
  ⟨[⟨SIMPLE, name, value, mergeTags tags⟩]⟩

/-- `metrics.Error` (metrics.go lines 89-91). -/
def Error (name : String) (tags : List GoMap) : Metrics :=
  ⟨[⟨ERROR, name, 1, mergeTags tags⟩]⟩

/-- `metrics.Compound` (metrics.go lines 94-96). -/
def Compound (name : String) (value : Rat) (tags : List GoMap) : Metrics :=
  ⟨[⟨COMPOUND, name, value, mergeTags tags⟩]⟩

/-- `metrics.Counter` (metrics.go lines 99-101). -/
def Counter (name : String) (tags : List GoMap) : Metrics :=
  ⟨[⟨SIMPLE, name, 1, mergeTags tags⟩]⟩

/-- `metrics.Transaction` (metrics.go lines 29-31): wraps an optional
newrelic transaction handle (a nil interface when absent). -/
structure Transaction : Type where
  nrTrx : Option String
deriving Repr

/-- `metrics.Transaction.NoticeError` (metrics.go lines 162-166): notifies
the backend only when a live handle is wrapped. -/
def Transaction.NoticeError (trx : Transaction) (name : String) : List Effect :=
  match trx.nrTrx with
  | some h => [.noticeError h name]
  | none => []

/-- `metrics.Transaction.End` (metrics.go lines 168-172): forwards to the
backend `End` when a live handle is wrapped.  Note the handle is NOT
cleared, so every call with a live handle forwards again. -/
def Transaction.End (trx : Transaction) : List Effect :=
  match trx.nrTrx with
  | some h => [.trxEnd h]
  | none => []

/-- `metrics.Segment` (metrics.go lines 174-176). -/
structure Segment : Type where
  nrSeg : Option String
deriving Repr

/-- `metrics.NullSegment` (metrics.go lines 178-180): a segment wrapping
no backend handle. -/
def NullSegment : Segment :=
  ⟨none⟩

/-- `metrics.Segment.End` (metrics.go lines 182-186): same guard as
`Transaction.End`; the handle is never cleared. -/
def Segment.End (seg : Segment) : List Effect :=
  match seg.nrSeg with
  | some h => [.segEnd h]
  | none => []

/-- Process-wide configuration of both packages, passed explicitly:
`log.Level`, `log.pushMetrics` (metrics.go lines 255-256) and
`metrics.namePrefix` (source name: namePrefix), `metrics.defaultTags`
(metrics.go lines 42-43). -/
structure Globals : Type where
  Level : Int
  pushMetrics : Bool
  namePfx : String
  defaultTags : GoMap
deriving Repr

/-- `metrics.PushMetric` (metrics.go lines 104-123): qualifies the name
with the global name prefix, merges the default tags with the extra tag
maps, and dispatches on the record's type; an ERROR record first notifies
the context's transaction (when one is present) and then records a simple
metric with value 1; an unknown type performs no backend call and returns
an error.  The serialization `asMetricTags` iterates the merged map in
unspecified order, so the effect carries the merged map itself. -/
def PushMetric (g : Globals) (metric : Metric) (trx : Option Transaction) (tags : List GoMap) :
    List Effect × Option String :=
  let name := g.namePfx ++ "." ++ metric.Name
  let strTags := Merge g.defaultTags (mergeTags tags)
  if metric.metricType = FULL then
    ([.recordFull name metric.Value strTags], none)
  else if metric.metricType = SIMPLE then
    ([.recordSimple name metric.Value strTags], none)
  else if metric.metricType = COMPOUND then
    ([.recordCompound name metric.Value strTags], none)
  else if metric.metricType = ERROR then
    ((match trx with
      | some t => t.NoticeError name
      | none => []) ++ [.recordSimple name 1 strTags], none)
  else
    ([], some (sprintf "Unkown metric type: %s" [.str metric.metricType]))

end metrics

namespace log

/-- Level constant TRACE (metrics.go lines 233-243). -/
def TRACE : Int := -1

/-- Level constant DEBUG. -/
def DEBUG : Int := 0

/-- Level constant INFO. -/
def INFO : Int := 1

/-- Level constant METRICS. -/
def METRICS : Int := 1

/-- Level constant WARN. -/
def WARN : Int := 2

/-- Level constant ERROR. -/
def ERROR : Int := 4

/-- Level constant CRITIC. -/
def CRITIC : Int := 4

/-- Level constant FATAL. -/
def FATAL : Int := 4

/-- Level constant NONE. -/
def NONE : Int := 100

/-- `log.Tags.merge` (metrics.go lines 404-413): builds a new map, copies
the receiver's entries, then writes the other map's entries over it. -/
def merge (tags other : GoMap) : GoMap :=
  other.foldl (fun m kv => mapSet m kv.1 kv.2) tags

/-- `log.logContext` (metrics.go lines 415-419). -/
structure logContext : Type where
  transaction : Option metrics.Transaction
  tags : GoMap
  metricTags : GoMap
deriving Repr

/-- `log.defaultContext` (metrics.go line 421). -/
def defaultContext : logContext :=
  ⟨none, [], []⟩

/-- State threaded through the argument classification loop of
`logContext.Log`: the call's tag set, the metric-tag scope, and the last
metric list seen. -/
structure ClassifyState : Type where
  tags : GoMap
  metricTags : GoMap
  metric : List metrics.Metric
deriving Repr

/-- Is a call-site argument of one of the four kinds the classifier
accepts? -/
def supportedArg : GoV → Bool
  | .str _ => true
  | .ltags _ => true
  | .vmetrics _ => true
  | .mtags _ => true
  | _ => false

/-- Are all call-site arguments supported? -/
def supportedArgs (args : List GoV) : Bool :=
  args.all supportedArg

/-- The classification loop of `logContext.Log` (metrics.go lines
363-382): a plain string is merged into the tags under key `event`; a
`log.Tags` map is merged into the tags; a `metrics.Metrics` list REPLACES
the metric list (source TODO: merge multiple metrics) and each record
contributes a `Name: Value` tag; a `metrics.Tags` map is merged into the
metric-tag scope; any other argument panics (the `.error` case) with the
formatted contract-violation message. -/
def classify : List GoV → ClassifyState → Except String ClassifyState
  | [], st => .ok st
  | v :: vs, st =>
    match v with
    | .str s => classify vs ⟨merge st.tags [("event", .str s)], st.metricTags, st.metric⟩
    | .ltags extra => classify vs ⟨merge st.tags extra, st.metricTags, st.metric⟩
    | .vmetrics recs =>
      let ms := recs.map metrics.recToMetric
      let newTags := ms.foldl (fun t m => merge t [(m.Name, GoV.vfloat m.Value)]) st.tags
      classify vs ⟨newTags, st.metricTags, ms⟩
    | .mtags extra => classify vs ⟨st.tags, metrics.Merge st.metricTags extra, st.metric⟩
    | other =>
      .error (sprintf "Argument must be of type Tags, Metrics or string: %v" [other])

/-- The metric-forwarding loop at the end of `logContext.Log` (metrics.go
lines 385-391): each collected record is pushed with the context's
transaction and the accumulated metric tags; a push error is logged
through `context.Errorf("Error pushing metric: %s", err)`, which emits a
nested error line exactly when the threshold allows ERROR (that nested
call passes no extra arguments and no metrics, so its only effect is the
line). -/
def pushLoop (g : metrics.Globals) (ctx : logContext) (mTags : GoMap) :
    List metrics.Metric → List Effect
  | [] => []
  | m :: ms =>
    let pushed := metrics.PushMetric g m ctx.transaction [mTags]
    let errEffs :=
      match pushed.2 with
      | some emsg =>
        if g.Level ≤ ERROR then
          [Effect.emitLine
            (merge
              (merge ctx.tags
                [("level", GoV.str "error"),
                 ("message", GoV.str (sprintf "Error pushing metric: %s" [.str emsg]))])
              [])]
        else []
      | none => []
    pushed.1 ++ errEffs ++ pushLoop g ctx mTags ms

/-- `logContext.Log` (metrics.go lines 359-392): classifies the variadic
arguments (possibly panicking), emits one line whose attributes are the
context tags merged with `level`/`message` and then with the classified
tags, and, when metric forwarding is enabled, pushes every collected
metric record. -/
def logContext.Log (g : metrics.Globals) (ctx : logContext) (level message : String)
    (eventsAndTags : List GoV) : Except String (List Effect) :=
  match classify eventsAndTags ⟨[], ctx.metricTags, []⟩ with
  | .error e => .error e
  | .ok st =>
    let lineAttrs :=
      merge (merge ctx.tags [("level", GoV.str level), ("message", GoV.str message)]) st.tags
    let metricEffs := if g.pushMetrics then pushLoop g ctx st.metricTags st.metric else []
    .ok (Effect.emitLine lineAttrs :: metricEffs)

/-- `logContext.Error` (metrics.go lines 279-285): constructs the error
from `fmt.Errorf("%v", value)` first, logs only when the threshold allows
ERROR, and returns the error in every case. -/
def logContext.Error (g : metrics.Globals) (ctx : logContext) (value : GoV)
    (eventsAndTags : List GoV) : Except String (List Effect × Option GoError) :=
  let err := fmtErrorf "%v" [value]
  if g.Level ≤ ERROR then
    (ctx.Log g "error" (errStr err) eventsAndTags).map (fun effs => (effs, err))
  else
    .ok ([], err)

/-- `logContext.Critic` (metrics.go lines 287-293). -/
def logContext.Critic (g : metrics.Globals) (ctx : logContext) (value : GoV)
    (eventsAndTags : List GoV) : Except String (List Effect × Option GoError) :=
  let err := fmtErrorf "%v" [value]
  if g.Level ≤ CRITIC then
    (ctx.Log g "critic" (errStr err) eventsAndTags).map (fun effs => (effs, err))
  else
    .ok ([], err)

/-- `logContext.Errorf` (metrics.go lines 295-301): note the `Log` call
passes no variadic arguments. -/
def logContext.Errorf (g : metrics.Globals) (ctx : logContext) (format : String)
    (a : List GoV) : Except String (List Effect × Option GoError) :=
  let err := fmtErrorf format a
  if g.Level ≤ ERROR then
    (ctx.Log g "error" (errStr err) []).map (fun effs => (effs, err))
  else
    .ok ([], err)

/-- `logContext.Fatalf` (metrics.go lines 303-308): when the threshold
allows FATAL it calls `context.Log("fatal", format, a)` — the message is
the UNformatted format string and the argument slice `a` is passed
UNSPREAD, i.e. as one `[]interface .0.` value — and then calls
`os.Exit(1)`.  A panic raised by `Log` propagates before the exit. -/
def logContext.Fatalf (g : metrics.Globals) (ctx : logContext) (format : String)
    (a : List GoV) : Except String (List Effect) :=
  (if g.Level ≤ FATAL then ctx.Log g "fatal" format [GoV.vlist a] else .ok []).map
    (fun effs => effs ++ [Effect.exit 1])

/-- `logContext.Info` (metrics.go lines 310-315): returns at once when the
threshold is above INFO. -/
def logContext.Info (g : metrics.Globals) (ctx : logContext) (value : GoV)
    (eventsAndTags : List GoV) : Except String (List Effect) :=
  if g.Level > INFO then .ok []
  else ctx.Log g "info" (sprintf "%v" [value]) eventsAndTags

/-- `logContext.Debug` (metrics.go lines 317-322). -/
def logContext.Debug (g : metrics.Globals) (ctx : logContext) (value : GoV)
    (eventsAndTags : List GoV) : Except String (List Effect) :=
  if g.Level > DEBUG then .ok []
  else ctx.Log g "debug" (sprintf "%v" [value]) eventsAndTags

/-- `logContext.Trace` (metrics.go lines 324-329). -/
def logContext.Trace (g : metrics.Globals) (ctx : logContext) (value : GoV)
    (eventsAndTags : List GoV) : Except String (List Effect) :=
  if g.Level > TRACE then .ok []
  else ctx.Log g "trace" (sprintf "%v" [value]) eventsAndTags

/-- `logContext.Metric` (metrics.go lines 331-336). -/
def logContext.Metric (g : metrics.Globals) (ctx : logContext) (value : GoV)
    (eventsAndTags : List GoV) : Except String (List Effect) :=
  if g.Level > METRICS then .ok []
  else ctx.Log g "metric" (sprintf "%v" [value]) eventsAndTags

/-- `logContext.WithContext` (metrics.go lines 467-469): derives a new
context with the extra tags merged in; transaction and metric tags are
inherited unchanged. -/
def logContext.WithContext (ctx : logContext) (tags : GoMap) : logContext :=
  ⟨ctx.transaction, merge ctx.tags tags, ctx.metricTags⟩

/-- `logContext.WithMetricsContext` (metrics.go lines 471-473). -/
def logContext.WithMetricsContext (ctx : logContext) (metricTags : GoMap) : logContext :=
  ⟨ctx.transaction, ctx.tags, metrics.Merge ctx.metricTags metricTags⟩

/-- Package-level `log.Error` (metrics.go lines 423-425): spreads its
variadic arguments into the method. -/
def Error (g : metrics.Globals) (value : GoV) (eventsAndTags : List GoV) :
    Except String (List Effect × Option GoError) :=
  defaultContext.Error g value eventsAndTags

/-- Package-level `log.Errorf` (metrics.go lines 427-429): passes the
collected argument slice `a` UNSPREAD, so the method's variadic list holds
one element: the whole slice. -/
def Errorf (g : metrics.Globals) (format : String) (a : List GoV) :
    Except String (List Effect × Option GoError) :=
  logContext.Errorf g defaultContext format [GoV.vlist a]

/-- Package-level `log.Fatalf` (metrics.go lines 447-449): also passes the
argument slice unspread. -/
def Fatalf (g : metrics.Globals) (format : String) (a : List GoV) :
    Except String (List Effect) :=
  logContext.Fatalf g defaultContext format [GoV.vlist a]

/-- Package-level `log.Info` (metrics.go lines 431-433): spreads its
arguments. -/
def Info (g : metrics.Globals) (value : GoV) (eventsAndTags : List GoV) :
    Except String (List Effect) :=
  defaultContext.Info g value eventsAndTags

/-- Package-level `log.Debug` (metrics.go lines 435-437). -/
def Debug (g : metrics.Globals) (value : GoV) (eventsAndTags : List GoV) :
    Except String (List Effect) :=
  defaultContext.Debug g value eventsAndTags

/-- Package-level `log.Trace` (metrics.go lines 439-441). -/
def Trace (g : metrics.Globals) (value : GoV) (eventsAndTags : List GoV) :
    Except String (List Effect) :=
  defaultContext.Trace g value eventsAndTags

/-- Package-level `log.Critic` (metrics.go lines 443-445). -/
def Critic (g : metrics.Globals) (value : GoV) (eventsAndTags : List GoV) :
    Except String (List Effect × Option GoError) :=
  defaultContext.Critic g value eventsAndTags

/-- Package-level `log.Metric` (metrics.go lines 451-453). -/
def Metric (g : metrics.Globals) (value : GoV) (eventsAndTags : List GoV) :
    Except String (List Effect) :=
  defaultContext.Metric g value eventsAndTags

end log

namespace metrics

/-! ### Allocation-level model of the `Metrics` builders

The value-level `Metrics.Full`/`Simple`/... above describe the CONTENTS of
the list each builder returns.  The source builds those lists with Go's
`append` on a shared backing array (`Metrics{append(metrics.Values, ...)}`),
so two sibling lists extended from the same base can share storage.  The
definitions below re-model the same source functions at the level of Go
slice semantics: a slice is a (backing-buffer id, length) pair, a heap maps
buffer ids to buffer contents (the buffer's length is its capacity), and
`append` writes in place when spare capacity exists, otherwise allocates a
new buffer of twice the length (Go's growth rule for small slices; a slice
literal `[]Metric{m}` has capacity 1). -/

/-- A Go slice header: backing buffer id and length.  (The capacity is the
length of the backing buffer in the heap.) -/
structure GoSlice : Type where
  buf : Nat
  len : Nat
deriving Repr

/-- The heap of backing buffers. -/
abbrev MHeap := List (List Metric)

/-- The zero `Metric` value filling unused capacity. -/
def zeroMetric : Metric :=
  ⟨"", "", 0, []⟩

/-- Go `append` of one element: in-place write when length < capacity,
otherwise allocation of a doubled buffer holding the copied elements. -/
def sliceAppend (h : MHeap) (s : GoSlice) (x : Metric) : MHeap × GoSlice :=
  let buf := h.getD s.buf []
  if s.len < buf.length then
    (h.set s.buf (buf.set s.len x), ⟨s.buf, s.len + 1⟩)
  else
    let newcap := if s.len = 0 then 1 else 2 * s.len
    let newbuf := buf.take s.len ++ x :: List.replicate (newcap - (s.len + 1)) zeroMetric
    (h ++ [newbuf], ⟨h.length, s.len + 1⟩)

/-- Read element `i` of a slice. -/
def sliceGet (h : MHeap) (s : GoSlice) (i : Nat) : Option Metric :=
  if i < s.len then (h.getD s.buf []).get? i else none

/-- `metrics.Full` (fresh constructor, metrics.go lines 79-81) at slice
level: allocates a one-element buffer from the slice literal. -/
def sliceFull (h : MHeap) (name : String) (value : Rat) (tags : List GoMap) :
    MHeap × GoSlice :=
  (h ++ [[⟨FULL, name, value, mergeTags tags⟩]], ⟨h.length, 1⟩)

/-- `metrics.Metrics.Simple` (metrics.go lines 59-61) at slice level. -/
def sliceSimple (h : MHeap) (s : GoSlice) (name : String) (value : Rat)
    (tags : List GoMap) : MHeap × GoSlice :=
  sliceAppend h s ⟨SIMPLE, name, value, mergeTags tags⟩

/-- `metrics.Metrics.Compound` (metrics.go lines 64-66) at slice level. -/
def sliceCompound (h : MHeap) (s : GoSlice) (name : String) (value : Rat)
    (tags : List GoMap) : MHeap × GoSlice :=
  sliceAppend h s ⟨COMPOUND, name, value, mergeTags tags⟩

/-- `metrics.Metrics.Counter` (metrics.go lines 69-71) at slice level. -/
def sliceCounter (h : MHeap) (s : GoSlice) (name : String) (tags : List GoMap) :
    MHeap × GoSlice :=
  sliceAppend h s ⟨SIMPLE, name, 1, mergeTags tags⟩

/-- Base list for the aliasing scenario:
`Full("m1",1).Simple("m2",2).Compound("m3",3)` — length 3, and the last
append grew the buffer to capacity 4, leaving one spare slot. -/
def aliasBase : MHeap × GoSlice :=
  let s1 := sliceFull [] "m1" 1 []
  let s2 := sliceSimple s1.1 s1.2 "m2" 2 []
  sliceCompound s2.1 s2.2 "m3" 3 []

/-- First sibling: `base.Counter("a")`. -/
def aliasSibA : MHeap × GoSlice :=
  sliceCounter aliasBase.1 aliasBase.2 "a" []

/-- Second sibling, extended from the SAME base after the first:
`base.Counter("b")`. -/
def aliasSibB : MHeap × GoSlice :=
  sliceCounter aliasSibA.1 aliasBase.2 "b" []

end metrics

/-- Does an effect trace contain an emitted log line? -/
def hasEmit (effs : List Effect) : Bool :=
  effs.any fun e =>
    match e with
    | .emitLine _ => true
    | _ => false

/-- The effect trace of calling `Transaction.End` `n` times in succession:
`End` reads but never modifies the wrapped handle, so each call
contributes the same effects. -/
def endCalls (trx : metrics.Transaction) (n : Nat) : List Effect :=
  (List.replicate n trx.End).flatten

/-- The effect trace of calling `Segment.End` `n` times in succession. -/
def segEndCalls (seg : metrics.Segment) (n : Nat) : List Effect :=
  (List.replicate n seg.End).flatten

/-- Sample configuration: threshold DEBUG(0), metric forwarding off. -/
def gDebug : metrics.Globals :=
  ⟨0, false, "", []⟩

/-- Sample configuration: threshold NONE(100) — the default —, metric
forwarding off. -/
def gNone : metrics.Globals :=
  ⟨100, false, "", []⟩

/-- Sample configuration: threshold INFO(1), metric forwarding on with
name prefix "svc". -/
def gSvc : metrics.Globals :=
  ⟨1, true, "svc", [("cluster", GoV.str "prod")]⟩

/-! ### Theorems -/

theorem mapGet_mapSet_self (m : GoMap) (k : String) (v : GoV) :
    mapGet (mapSet m k v) k = some v := by
  induction m with
  | nil => simp [mapSet, mapGet]
  | cons kv rest ih =>
    obtain ⟨k₀, v₀⟩ := kv
    by_cases hk : k₀ = k
    · subst hk; simp [mapSet, mapGet]
    · simp [mapSet, mapGet, hk, ih]

theorem mapGet_mapSet_ne (m : GoMap) (k k' : String) (v : GoV) (h : k ≠ k') :
    mapGet (mapSet m k v) k' = mapGet m k' := by
  induction m with
  | nil => simp [mapSet, mapGet, h]
  | cons kv rest ih =>
    obtain ⟨k₀, v₀⟩ := kv
    by_cases hk : k₀ = k
    · subst hk; simp [mapSet, mapGet, h]
    · by_cases hk' : k₀ = k'
      · subst hk'; simp [mapSet, mapGet, hk]
      · simp [mapSet, mapGet, hk, hk', ih]

theorem mapGet_not_mem (m : GoMap) (k : String) (h : k ∉ m.map Prod.fst) :
    mapGet m k = none := by
  induction m with
  | nil => rfl
  | cons kv rest ih =>
    obtain ⟨k₀, v₀⟩ := kv
    simp only [List.map_cons, List.mem_cons, not_or] at h
    have hk : ¬ k₀ = k := fun he => h.1 he.symm
    simp only [mapGet, if_neg hk]
    exact ih h.2

theorem mapGet_merge_none (b : GoMap) :
    ∀ (a : GoMap) (k : String), mapGet b k = none →
      mapGet (log.merge a b) k = mapGet a k := by
  induction b with
  | nil => intro a k _; rfl
  | cons kv rest ih =>
    intro a k h
    obtain ⟨k₀, v₀⟩ := kv
    have hk : ¬ k₀ = k := by
      intro he
      simp [mapGet, he] at h
    have hrest : mapGet rest k = none := by simpa [mapGet, hk] using h
    have hstep : log.merge a ((k₀, v₀) :: rest) = log.merge (mapSet a k₀ v₀) rest := rfl
    rw [hstep, ih _ _ hrest, mapGet_mapSet_ne _ _ _ _ hk]

theorem mapGet_merge_some (b : GoMap) :
    ∀ (a : GoMap) (k : String) (v : GoV), (b.map Prod.fst).Nodup →
      mapGet b k = some v → mapGet (log.merge a b) k = some v := by
  induction b with
  | nil => intro a k v _ h; simp [mapGet] at h
  | cons kv rest ih =>
    intro a k v hnd h
    obtain ⟨k₀, v₀⟩ := kv
    simp only [List.map_cons, List.nodup_cons] at hnd
    have hstep : log.merge a ((k₀, v₀) :: rest) = log.merge (mapSet a k₀ v₀) rest := rfl
    by_cases hk : k₀ = k
    · subst hk
      have hv : v₀ = v := by simpa [mapGet] using h
      subst hv
      have hrest : mapGet rest k₀ = none := mapGet_not_mem rest k₀ hnd.1
      rw [hstep, mapGet_merge_none rest _ _ hrest, mapGet_mapSet_self]
    · have hrest : mapGet rest k = some v := by simpa [mapGet, hk] using h
      rw [hstep]
      exact ih _ _ _ hnd.2 hrest

theorem mapGet_merge_isSome (a b : GoMap) (k : String)
    (hnd : (b.map Prod.fst).Nodup) :
    (mapGet (log.merge a b) k).isSome = ((mapGet a k).isSome || (mapGet b k).isSome) := by
  cases hbk : mapGet b k with
  | none => rw [mapGet_merge_none b a k hbk]; simp [hbk]
  | some v => rw [mapGet_merge_some b a k v hnd hbk]; simp [hbk]

theorem metrics_Merge_eq_merge (a b : GoMap) :
    metrics.Merge a b = log.merge (log.merge [] a) b := rfl

theorem mapGet_merge_empty (a : GoMap) (k : String)
    (hnd : (a.map Prod.fst).Nodup) :
    mapGet (log.merge [] a) k = mapGet a k := by
  cases hak : mapGet a k with
  | none => rw [mapGet_merge_none a [] k hak]; rfl
  | some v => exact mapGet_merge_some a [] k v hnd hak

/-- Claim C6: for all Tag Maps A and B (Go maps: one entry per key),
merge(A, B) contains every key present in A or in B, keys only in A keep
A's value, keys present in B get B's value (last-write-wins); in
particular merging a map binding "a" to 1 with one binding "a" to 2 yields
the binding "a" to 2.  Both the log package's `Tags.merge` and the metrics
package's `Tags.Merge`/`mergeTags` satisfy this. -/
theorem c6_merge_last_write_wins :
    (∀ (A B : GoMap), (A.map Prod.fst).Nodup → (B.map Prod.fst).Nodup →
      ∀ k : String,
        ((mapGet (log.merge A B) k).isSome
            = ((mapGet A k).isSome || (mapGet B k).isSome)) ∧
        (mapGet B k = none → mapGet (log.merge A B) k = mapGet A k) ∧
        (∀ v, mapGet B k = some v → mapGet (log.merge A B) k = some v) ∧
        ((mapGet (metrics.Merge A B) k).isSome
            = ((mapGet A k).isSome || (mapGet B k).isSome)) ∧
        (mapGet B k = none → mapGet (metrics.Merge A B) k = mapGet A k) ∧
        (∀ v, mapGet B k = some v → mapGet (metrics.Merge A B) k = some v)) ∧
    log.merge [("a", GoV.vint 1)] [("a", GoV.vint 2)] = [("a", GoV.vint 2)] ∧
    metrics.Merge [("a", GoV.vint 1)] [("a", GoV.vint 2)] = [("a", GoV.vint 2)] := by
  refine ⟨fun A B hA hB k => ?_, rfl, rfl⟩
  have hAe : ∀ k', mapGet (log.merge [] A) k' = mapGet A k' :=
    fun k' => mapGet_merge_empty A k' hA
  refine ⟨mapGet_merge_isSome A B k hB, fun h => mapGet_merge_none B A k h,
    fun v h => mapGet_merge_some B A k v hB h, ?_, ?_, ?_⟩
  · rw [metrics_Merge_eq_merge, mapGet_merge_isSome _ B k hB, hAe k]
  · intro h
    rw [metrics_Merge_eq_merge, mapGet_merge_none B _ k h, hAe k]
  · intro v h
    rw [metrics_Merge_eq_merge]
    exact mapGet_merge_some B _ k v hB h

/-- Witness for C6 at concrete maps: A binds "a" to 1 and "x" to 7, B
binds "a" to 2; the merge keeps A's value at "x" and takes B's value at
the conflicting key "a". -/
theorem c6_witness :
    mapGet (log.merge [("a", GoV.vint 1), ("x", GoV.vint 7)] [("a", GoV.vint 2)]) "x"
        = mapGet [("a", GoV.vint 1), ("x", GoV.vint 7)] "x" ∧
    mapGet (log.merge [("a", GoV.vint 1), ("x", GoV.vint 7)] [("a", GoV.vint 2)]) "a"
        = some (GoV.vint 2) := by
  have h := c6_merge_last_write_wins.1 [("a", GoV.vint 1), ("x", GoV.vint 7)]
    [("a", GoV.vint 2)] (by decide) (by decide)
  exact ⟨(h "x").2.1 rfl, (h "a").2.2.1 (GoV.vint 2) rfl⟩

/-- Claim C7: chaining `WithContext` merges the tag maps in order onto the
parent's tags, inherits the parent's transaction and metric tags
unchanged, and leaves the parent untouched (contexts are values; the
merge builds a fresh map).  Concretely, deriving from the default context
with x:1 then y:2 yields exactly those two tags while the default
context's own fields are unchanged. -/
theorem c7_with_context_derivation :
    ∀ (ctx : log.logContext) (t1 t2 : GoMap),
      ((ctx.WithContext t1).WithContext t2).tags = log.merge (log.merge ctx.tags t1) t2 ∧
      ((ctx.WithContext t1).WithContext t2).transaction = ctx.transaction ∧
      ((ctx.WithContext t1).WithContext t2).metricTags = ctx.metricTags ∧
      ((log.defaultContext.WithContext [("x", GoV.vint 1)]).WithContext
          [("y", GoV.vint 2)]).tags = [("x", GoV.vint 1), ("y", GoV.vint 2)] ∧
      mapGet ((log.defaultContext.WithContext [("x", GoV.vint 1)]).WithContext
          [("y", GoV.vint 2)]).tags "x" = some (GoV.vint 1) ∧
      mapGet ((log.defaultContext.WithContext [("x", GoV.vint 1)]).WithContext
          [("y", GoV.vint 2)]).tags "y" = some (GoV.vint 2) ∧
      log.defaultContext.tags = [] ∧
      log.defaultContext.metricTags = [] ∧
      log.defaultContext.transaction = none :=
  fun _ _ _ => ⟨rfl, rfl, rfl, rfl, rfl, rfl, rfl, rfl, rfl⟩

theorem classify_ok (args : List GoV) :
    ∀ st, log.supportedArgs args = true →
      ∃ st2, log.classify args st = .ok st2 := by
  induction args with
  | nil => intro st _; exact ⟨st, rfl⟩
  | cons v vs ih =>
    intro st h
    simp only [log.supportedArgs, List.all_cons, Bool.and_eq_true] at h
    cases v with
    | str s => exact ih _ h.2
    | ltags e => exact ih _ h.2
    | vmetrics recs => exact ih _ h.2
    | mtags e => exact ih _ h.2
    | vint n => simp [log.supportedArg] at h
    | vfloat q => simp [log.supportedArg] at h
    | vlist vs2 => simp [log.supportedArg] at h

theorem classify_error (args : List GoV) :
    ∀ st, log.supportedArgs args = false →
      ∃ pm, log.classify args st = .error pm := by
  induction args with
  | nil => intro st h; simp [log.supportedArgs] at h
  | cons v vs ih =>
    intro st h
    cases v with
    | str s =>
      simp only [log.supportedArgs, List.all_cons, log.supportedArg, Bool.true_and] at h
      exact ih _ h
    | ltags e =>
      simp only [log.supportedArgs, List.all_cons, log.supportedArg, Bool.true_and] at h
      exact ih _ h
    | vmetrics recs =>
      simp only [log.supportedArgs, List.all_cons, log.supportedArg, Bool.true_and] at h
      exact ih _ h
    | mtags e =>
      simp only [log.supportedArgs, List.all_cons, log.supportedArg, Bool.true_and] at h
      exact ih _ h
    | vint n => exact ⟨_, rfl⟩
    | vfloat q => exact ⟨_, rfl⟩
    | vlist vs2 => exact ⟨_, rfl⟩

theorem log_ok_shape (g : metrics.Globals) (ctx : log.logContext) (lv msg : String)
    (ats : List GoV) (h : log.supportedArgs ats = true) :
    ∃ attrs rest,
      log.logContext.Log g ctx lv msg ats = .ok (Effect.emitLine attrs :: rest) := by
  obtain ⟨st2, hc⟩ := classify_ok ats ⟨[], ctx.metricTags, []⟩ h
  unfold log.logContext.Log
  rw [hc]
  exact ⟨_, _, rfl⟩

theorem gate_shape (g : metrics.Globals) (ctx : log.logContext) (S : Int)
    (lv msg : String) (ats : List GoV) (h : log.supportedArgs ats = true) :
    ∃ effs,
      (if g.Level > S then (Except.ok [] : Except String (List Effect))
        else log.logContext.Log g ctx lv msg ats) = Except.ok effs ∧
      (hasEmit effs = true ↔ g.Level ≤ S) ∧ (g.Level > S → effs = []) := by
  by_cases hl : g.Level > S
  · refine ⟨[], by simp [hl], ?_, fun _ => rfl⟩
    simp only [hasEmit, List.any_nil]
    constructor
    · intro hfalse; exact absurd hfalse (by simp)
    · intro hle; exact absurd hle (by omega)
  · obtain ⟨attrs, rest, hL⟩ := log_ok_shape g ctx lv msg ats h
    refine ⟨Effect.emitLine attrs :: rest, by simp [hl, hL], ?_, fun hc => absurd hc hl⟩
    constructor
    · intro _; omega
    · intro _; simp [hasEmit]

theorem errgate_shape (g : metrics.Globals) (ctx : log.logContext) (S : Int)
    (lv msg : String) (ats : List GoV) (err : Option GoError)
    (h : log.supportedArgs ats = true) :
    ∃ effs,
      (if g.Level ≤ S then
          (log.logContext.Log g ctx lv msg ats).map (fun effs => (effs, err))
        else Except.ok ([], err)) = Except.ok (effs, err) ∧
      (hasEmit effs = true ↔ g.Level ≤ S) ∧ (g.Level > S → effs = []) := by
  by_cases hl : g.Level ≤ S
  · obtain ⟨attrs, rest, hL⟩ := log_ok_shape g ctx lv msg ats h
    refine ⟨Effect.emitLine attrs :: rest, by simp [hl, hL, Except.map], ?_,
      fun hc => absurd hl (by omega)⟩
    exact ⟨fun _ => hl, fun _ => by simp [hasEmit]⟩
  · refine ⟨[], by simp [hl], ?_, fun _ => rfl⟩
    simp only [hasEmit, List.any_nil]
    constructor
    · intro hfalse; exact absurd hfalse (by simp)
    · intro hle; exact absurd hle hl

/-- Claim C1: every logging verb with fixed severity S (Trace at
TRACE(-1), Debug at DEBUG(0), Info at INFO(1), Metric at METRICS(1),
Error at ERROR(4), Critic at CRITIC(4)) emits a line iff the threshold is
at most S (boundary: threshold = S emits), and when the threshold is
strictly above S the verb produces NO effects at all — no classification,
no tag merge, no emission, no metric dispatch (Error/Critic still return
their error value).  Arguments are assumed to be of the supported kinds,
since an unsupported argument panics inside a non-suppressed call. -/
theorem c1_severity_gate :
    ∀ (g : metrics.Globals) (ctx : log.logContext) (value : GoV) (ats : List GoV),
      log.supportedArgs ats = true →
      (∃ effs, log.logContext.Trace g ctx value ats = .ok effs ∧
        (hasEmit effs = true ↔ g.Level ≤ log.TRACE) ∧ (g.Level > log.TRACE → effs = [])) ∧
      (∃ effs, log.logContext.Debug g ctx value ats = .ok effs ∧
        (hasEmit effs = true ↔ g.Level ≤ log.DEBUG) ∧ (g.Level > log.DEBUG → effs = [])) ∧
      (∃ effs, log.logContext.Info g ctx value ats = .ok effs ∧
        (hasEmit effs = true ↔ g.Level ≤ log.INFO) ∧ (g.Level > log.INFO → effs = [])) ∧
      (∃ effs, log.logContext.Metric g ctx value ats = .ok effs ∧
        (hasEmit effs = true ↔ g.Level ≤ log.METRICS) ∧ (g.Level > log.METRICS → effs = [])) ∧
      (∃ effs e, log.logContext.Error g ctx value ats = .ok (effs, e) ∧
        (hasEmit effs = true ↔ g.Level ≤ log.ERROR) ∧ (g.Level > log.ERROR → effs = [])) ∧
      (∃ effs e, log.logContext.Critic g ctx value ats = .ok (effs, e) ∧
        (hasEmit effs = true ↔ g.Level ≤ log.CRITIC) ∧ (g.Level > log.CRITIC → effs = [])) := by
  intro g ctx value ats h
  refine ⟨?_, ?_, ?_, ?_, ?_, ?_⟩
  · exact gate_shape g ctx log.TRACE "trace" (sprintf "%v" [value]) ats h
  · exact gate_shape g ctx log.DEBUG "debug" (sprintf "%v" [value]) ats h
  · exact gate_shape g ctx log.INFO "info" (sprintf "%v" [value]) ats h
  · exact gate_shape g ctx log.METRICS "metric" (sprintf "%v" [value]) ats h
  · obtain ⟨effs, h1, h2, h3⟩ := errgate_shape g ctx log.ERROR "error"
      (errStr (fmtErrorf "%v" [value])) ats (fmtErrorf "%v" [value]) h
    exact ⟨effs, fmtErrorf "%v" [value], h1, h2, h3⟩
  · obtain ⟨effs, h1, h2, h3⟩ := errgate_shape g ctx log.CRITIC "critic"
      (errStr (fmtErrorf "%v" [value])) ats (fmtErrorf "%v" [value]) h
    exact ⟨effs, fmtErrorf "%v" [value], h1, h2, h3⟩

/-- Witness for C1 at threshold DEBUG(0): Debug emits (boundary:
threshold equals the verb's severity). -/
theorem c1_witness :
    ∃ effs, log.logContext.Debug gDebug log.defaultContext (GoV.str "x") [GoV.str "e"]
        = .ok effs ∧ (hasEmit effs = true ↔ gDebug.Level ≤ log.DEBUG) ∧
        (gDebug.Level > log.DEBUG → effs = []) :=
  (c1_severity_gate gDebug log.defaultContext (GoV.str "x") [GoV.str "e"] (by decide)).2.1

/-- Claim C3: Error, Critic and Errorf construct a non-nil error carrying
the formatted message and return exactly that error no matter what the
threshold is — the statement pins the returned error to the same value
`some (message)` for EVERY configuration `g`, whether the line is emitted
(threshold low enough) or suppressed. -/
theorem c3_error_verbs_return :
    ∀ (g : metrics.Globals) (ctx : log.logContext) (value : GoV) (ats : List GoV),
      log.supportedArgs ats = true →
      (∃ effs, log.logContext.Error g ctx value ats
          = .ok (effs, some ⟨sprintf "%v" [value]⟩)) ∧
      (∃ effs, log.logContext.Critic g ctx value ats
          = .ok (effs, some ⟨sprintf "%v" [value]⟩)) ∧
      (∀ (f : String) (a : List GoV), ∃ effs,
        log.logContext.Errorf g ctx f a = .ok (effs, some ⟨sprintf f a⟩)) := by
  intro g ctx value ats h
  refine ⟨?_, ?_, ?_⟩
  · obtain ⟨effs, h1, _, _⟩ := errgate_shape g ctx log.ERROR "error"
      (errStr (fmtErrorf "%v" [value])) ats (fmtErrorf "%v" [value]) h
    exact ⟨effs, h1⟩
  · obtain ⟨effs, h1, _, _⟩ := errgate_shape g ctx log.CRITIC "critic"
      (errStr (fmtErrorf "%v" [value])) ats (fmtErrorf "%v" [value]) h
    exact ⟨effs, h1⟩
  · intro f a
    obtain ⟨effs, h1, _, _⟩ := errgate_shape g ctx log.ERROR "error"
      (errStr (fmtErrorf f a)) [] (fmtErrorf f a) rfl
    exact ⟨effs, h1⟩

/-- Witness for C3 at the suppressing threshold NONE(100): the error is
still returned. -/
theorem c3_witness :
    ∃ effs, log.logContext.Error gNone log.defaultContext (GoV.str "boom") []
        = .ok (effs, some ⟨sprintf "%v" [GoV.str "boom"]⟩) :=
  (c3_error_verbs_return gNone log.defaultContext (GoV.str "boom") [] rfl).1

/-- Claim C9: a logging call that reaches `Log` panics exactly when some
variadic argument is not one of the four supported kinds (string,
log.Tags, metrics.Metrics, metrics.Tags): with all arguments supported the
call completes, with any unsupported argument it aborts with the
contract-violation panic. -/
theorem c9_argument_contract :
    ∀ (g : metrics.Globals) (ctx : log.logContext) (lv msg : String) (ats : List GoV),
      (log.supportedArgs ats = true →
        ∃ effs, log.logContext.Log g ctx lv msg ats = .ok effs) ∧
      (log.supportedArgs ats = false →
        ∃ pm, log.logContext.Log g ctx lv msg ats = .error pm) := by
  intro g ctx lv msg ats
  constructor
  · intro h
    obtain ⟨attrs, rest, hL⟩ := log_ok_shape g ctx lv msg ats h
    exact ⟨_, hL⟩
  · intro h
    obtain ⟨pm, hc⟩ := classify_error ats ⟨[], ctx.metricTags, []⟩ h
    refine ⟨pm, ?_⟩
    unfold log.logContext.Log
    rw [hc]

/-- Witness for C9: a supported string argument completes; an `int`
argument panics. -/
theorem c9_witness :
    (∃ effs, log.logContext.Log gDebug log.defaultContext "info" "m" [GoV.str "e"]
        = .ok effs) ∧
    (∃ pm, log.logContext.Log gDebug log.defaultContext "info" "m" [GoV.vint 3]
        = .error pm) :=
  ⟨(c9_argument_contract gDebug log.defaultContext "info" "m" [GoV.str "e"]).1 rfl,
   (c9_argument_contract gDebug log.defaultContext "info" "m" [GoV.vint 3]).2 rfl⟩

/-- Claim C4: pushing an ERROR-type metric record with a transaction
wrapping a live backend handle notifies the backend of the error exactly
once, named with the prefix-qualified metric name, BEFORE the backend
simple-metric call, and records the simple metric with value 1; with no
transaction only the simple metric with value 1 is recorded.  No error is
returned in either case. -/
theorem c4_push_error_metric :
    ∀ (g : metrics.Globals) (m : metrics.Metric) (trx : Option metrics.Transaction)
      (tags : List GoMap),
      m.metricType = metrics.ERROR →
      (∀ (t : metrics.Transaction) (hnd : String), trx = some t → t.nrTrx = some hnd →
        metrics.PushMetric g m trx tags =
          ([Effect.noticeError hnd (g.namePfx ++ "." ++ m.Name),
            Effect.recordSimple (g.namePfx ++ "." ++ m.Name) 1
              (metrics.Merge g.defaultTags (metrics.mergeTags tags))], none)) ∧
      (trx = none →
        metrics.PushMetric g m trx tags =
          ([Effect.recordSimple (g.namePfx ++ "." ++ m.Name) 1
              (metrics.Merge g.defaultTags (metrics.mergeTags tags))], none)) := by
  intro g m trx tags hE
  have hF : ¬ m.metricType = metrics.FULL := by rw [hE]; decide
  have hS : ¬ m.metricType = metrics.SIMPLE := by rw [hE]; decide
  have hC : ¬ m.metricType = metrics.COMPOUND := by rw [hE]; decide
  constructor
  · intro t hnd htrx hh
    subst htrx
    simp only [metrics.PushMetric, if_neg hF, if_neg hS, if_neg hC, if_pos hE,
      metrics.Transaction.NoticeError, hh]
    rfl
  · intro htrx
    subst htrx
    simp only [metrics.PushMetric, if_neg hF, if_neg hS, if_neg hC, if_pos hE]
    rfl

/-- Witness for C4 with the "svc" prefix configuration, a live handle and
an ERROR record named "boom". -/
theorem c4_witness :
    metrics.PushMetric gSvc ⟨metrics.ERROR, "boom", 1, []⟩ (some ⟨some "h"⟩) [] =
      ([Effect.noticeError "h" (gSvc.namePfx ++ "." ++ "boom"),
        Effect.recordSimple (gSvc.namePfx ++ "." ++ "boom") 1
          (metrics.Merge gSvc.defaultTags (metrics.mergeTags []))], none) :=
  (c4_push_error_metric gSvc ⟨metrics.ERROR, "boom", 1, []⟩ (some ⟨some "h"⟩) [] rfl).1
    ⟨some "h"⟩ "h" rfl rfl

theorem flatten_replicate_singleton {α : Type} (n : Nat) (x : α) :
    (List.replicate n [x]).flatten = List.replicate n x := by
  induction n with
  | zero => rfl
  | succ k ih => simp [List.replicate_succ, ih]

theorem flatten_replicate_nil {α : Type} (n : Nat) :
    (List.replicate n ([] : List α)).flatten = [] := by
  induction n with
  | zero => rfl
  | succ k ih => simp [List.replicate_succ, ih]

/-- Claim C5 counterexample: two successive `End()` calls on a
Transaction wrapping a LIVE backend handle forward to the backend twice —
the absence check does not guard re-entry because the handle is never
cleared — so there IS a duplicate backend End call, contrary to the
claim's "no duplicate backend End call" for every Transaction. -/
theorem c5_counterexample :
    endCalls ⟨some "h"⟩ 2 = [Effect.trxEnd "h", Effect.trxEnd "h"] ∧
    (endCalls ⟨some "h"⟩ 2).length = 2 ∧
    metrics.Transaction.End ⟨some "h"⟩ = [Effect.trxEnd "h"] :=
  ⟨rfl, rfl, rfl⟩

/-- Claim C5 (amended): `End()` produces no error for any number of
calls; on a Transaction or Segment wrapping NO backend handle (including
`NullSegment()`) any number of calls is a complete no-op; on one wrapping
a live handle, each of the n calls forwards to the backend once (n calls
give n backend End calls — the code relies on the backend's own
idempotence rather than guarding re-entry). -/
theorem c5_amended_end_calls :
    ∀ (t : metrics.Transaction) (s : metrics.Segment) (n : Nat),
      (t.nrTrx = none → endCalls t n = []) ∧
      (∀ h, t.nrTrx = some h → endCalls t n = List.replicate n (Effect.trxEnd h)) ∧
      (s.nrSeg = none → segEndCalls s n = []) ∧
      (∀ h, s.nrSeg = some h → segEndCalls s n = List.replicate n (Effect.segEnd h)) ∧
      segEndCalls metrics.NullSegment n = [] := by
  intro t s n
  refine ⟨?_, ?_, ?_, ?_, ?_⟩
  · intro h
    unfold endCalls metrics.Transaction.End
    rw [h]
    exact flatten_replicate_nil n
  · intro hd h
    unfold endCalls metrics.Transaction.End
    rw [h]
    exact flatten_replicate_singleton n _
  · intro h
    unfold segEndCalls metrics.Segment.End
    rw [h]
    exact flatten_replicate_nil n
  · intro hd h
    unfold segEndCalls metrics.Segment.End
    rw [h]
    exact flatten_replicate_singleton n _
  · unfold segEndCalls metrics.Segment.End metrics.NullSegment
    exact flatten_replicate_nil n

/-- Witness for C5 (amended) at concrete handles and counts. -/
theorem c5_witness :
    endCalls ⟨none⟩ 5 = [] ∧
    endCalls ⟨some "h"⟩ 3 = List.replicate 3 (Effect.trxEnd "h") ∧
    segEndCalls metrics.NullSegment 4 = [] :=
  ⟨(c5_amended_end_calls ⟨none⟩ metrics.NullSegment 5).1 rfl,
   (c5_amended_end_calls ⟨some "h"⟩ metrics.NullSegment 3).2.1 "h" rfl,
   (c5_amended_end_calls ⟨none⟩ metrics.NullSegment 4).2.2.2.2⟩

/-- Claim C2 (evaluation of the code at the failing inputs): with the
threshold at DEBUG(0) — which allows FATAL — `Fatalf` does NOT log the
message and then exit: it panics inside `Log`'s argument classifier,
because the source passes the argument slice `a` unspread (one
`[]interface` value, which is not a supported argument kind), so no line
is emitted and `os.Exit(1)` is never reached.  With the threshold at
NONE(100) the logging step is skipped entirely (the `Level <= FATAL` gate
fails) and the process just exits — so the logging step also depends on
the threshold, contrary to the claim. -/
theorem c2_fatalf_eval :
    log.logContext.Fatalf gDebug log.defaultContext "boom" []
        = .error "Argument must be of type Tags, Metrics or string: []" ∧
    log.logContext.Fatalf gDebug log.defaultContext "msg %d" [GoV.vint 5]
        = .error "Argument must be of type Tags, Metrics or string: [5]" ∧
    log.logContext.Fatalf gNone log.defaultContext "boom" [] = .ok [Effect.exit 1] ∧
    log.Fatalf gNone "boom" [] = .ok [Effect.exit 1] :=
  ⟨rfl, rfl, rfl, rfl⟩

/-- Claim C8 (evaluation of the code at the failing input): the base list
`Full("m1",1).Simple("m2",2).Compound("m3",3)` has length 3 on a backing
array of capacity 4.  Sibling A := base.Counter("a") and sibling
B := base.Counter("b") both have length 4 and the records appear in call
order — but B's add overwrites the shared backing slot, so sibling A's
fourth record, which was the "a" counter right after A's add, is the "b"
counter after B's add: a later add on a sibling altered A's element. -/
theorem c8_sibling_aliasing :
    metrics.aliasBase.2.len = 3 ∧
    metrics.aliasSibA.2.len = 4 ∧
    metrics.aliasSibB.2.len = 4 ∧
    (metrics.sliceGet metrics.aliasSibA.1 metrics.aliasSibA.2 0).map metrics.Metric.Name
        = some "m1" ∧
    (metrics.sliceGet metrics.aliasSibA.1 metrics.aliasSibA.2 1).map metrics.Metric.Name
        = some "m2" ∧
    (metrics.sliceGet metrics.aliasSibA.1 metrics.aliasSibA.2 2).map metrics.Metric.Name
        = some "m3" ∧
    (metrics.sliceGet metrics.aliasSibA.1 metrics.aliasSibA.2 3).map metrics.Metric.Name
        = some "a" ∧
    (metrics.sliceGet metrics.aliasSibB.1 metrics.aliasSibA.2 3).map metrics.Metric.Name
        = some "b" ∧
    (metrics.sliceGet metrics.aliasSibB.1 metrics.aliasSibB.2 3).map metrics.Metric.Name
        = some "b" :=
  ⟨rfl, rfl, rfl, rfl, rfl, rfl, rfl, rfl, rfl⟩

theorem log_empty_args (g : metrics.Globals) (ctx : log.logContext) (lv msg : String) :
    log.logContext.Log g ctx lv msg [] =
      .ok [Effect.emitLine (log.merge (log.merge ctx.tags
        [("level", GoV.str lv), ("message", GoV.str msg)]) [])] := by
  cases hp : g.pushMetrics <;>
    · unfold log.logContext.Log
      rw [hp]
      rfl

/-- Claim C10 counterexample: the package-level `Errorf` passes its
argument list to the method UNSPREAD, so `Errorf("%d", 5)` returns the
error message "[5]" (the verb applied to the one-element slice holding
the arguments) while the method call with the same arguments spread,
`defaultContext.Errorf("%d", 5)`, returns "5" — the two are not
observationally equivalent. -/
theorem c10_counterexample :
    log.Errorf gNone "%d" [GoV.vint 5] = .ok ([], some ⟨"[5]"⟩) ∧
    log.logContext.Errorf gNone log.defaultContext "%d" [GoV.vint 5]
        = .ok ([], some ⟨"5"⟩) ∧
    ("[5]" : String) ≠ "5" :=
  ⟨rfl, rfl, by decide⟩

/-- Claim C10 (amended): package `Errorf(format, args)` behaves like the
method called with the argument list wrapped as ONE slice value: it
returns the error whose message is `format` applied to the one-element
operand list holding `args`, and emits one error line with that message
exactly when the threshold allows ERROR.  Package `Fatalf` likewise wraps
its arguments; since the method itself passes its own argument slice
unspread into `Log`, package `Fatalf` panics in the classifier whenever
the threshold allows FATAL, and otherwise exits without logging. -/
theorem c10_amended_unspread :
    ∀ (g : metrics.Globals) (f : String) (a : List GoV),
      log.Errorf g f a =
        .ok ((if g.Level ≤ log.ERROR then
            [Effect.emitLine [("level", GoV.str "error"),
              ("message", GoV.str (sprintf f [GoV.vlist a]))]] else []),
          some ⟨sprintf f [GoV.vlist a]⟩) ∧
      (g.Level ≤ log.FATAL → ∃ pm, log.Fatalf g f a = .error pm) ∧
      (g.Level > log.FATAL → log.Fatalf g f a = .ok [Effect.exit 1]) := by
  intro g f a
  refine ⟨?_, ?_, ?_⟩
  · unfold log.Errorf log.logContext.Errorf
    by_cases hl : g.Level ≤ log.ERROR
    · rw [if_pos hl, if_pos hl, log_empty_args]
      rfl
    · rw [if_neg hl, if_neg hl]
      rfl
  · intro hl
    unfold log.Fatalf log.logContext.Fatalf
    rw [if_pos hl]
    obtain ⟨pm, hc⟩ := classify_error [GoV.vlist [GoV.vlist a]]
      ⟨[], log.defaultContext.metricTags, []⟩ rfl
    refine ⟨pm, ?_⟩
    unfold log.logContext.Log
    rw [hc]
    rfl
  · intro hl
    unfold log.Fatalf log.logContext.Fatalf
    rw [if_neg (by omega)]
    rfl

/-- Witness for C10 (amended) at concrete thresholds. -/
theorem c10_witness :
    (∃ pm, log.Fatalf gDebug "x" [] = .error pm) ∧
    log.Fatalf gNone "x" [] = .ok [Effect.exit 1] :=
  ⟨(c10_amended_unspread gDebug "x" []).2.1 (by decide),
   (c10_amended_unspread gNone "x" []).2.2 (by decide)⟩
